import Mathlib

/-!
Verification development for the Collaboration-Mode Synchronization Core.

Each definition is a shallow embedding of a function from the repository
source; the theorems at the end of the file settle the specification
claims against these definitions.  Machine times are modelled as `Int`
milliseconds, database tables as Lean lists in insertion order, and
JavaScript strings as `List Char`.
-/

namespace LuminaSage

/-! ## Mode state machine (src/ipc/handlers/mode_handlers.ts) -/

/-- Collaboration modes, from the `AICollaborationMode` union type. -/
inductive AICollaborationMode
  | inspired
  | didactic
  | parallel
deriving DecidableEq

/-- Printable name of a mode, as used in error messages. -/
def modeName : AICollaborationMode → String
  | .inspired => "inspired"
  | .didactic => "didactic"
  | .parallel => "parallel"

/-- One row of the `aiCollaborationModes` table. -/
structure ModeRow where
  mode : AICollaborationMode
  isActive : Bool
  lastActivatedAt : Option Int
  configuration : Option String
deriving DecidableEq

/-- One row of the `modeTransitionHistory` table. -/
structure HistoryRow where
  fromMode : Option AICollaborationMode
  toMode : AICollaborationMode
  contextSnapshot : Option String
  transitionDuration : Int
  success : Bool
  errorMessage : Option String
deriving DecidableEq

/-- The local database state touched by the mode handlers: the mode table
and the transition-history table.  History rows are appended at the end,
so the newest record is the last element. -/
structure ModeDb where
  modes : List ModeRow
  history : List HistoryRow
deriving DecidableEq

/-- Default row inserted by `ensureModesExist` for a missing mode:
`isActive` and `lastActivatedAt` are set only for the `inspired` mode. -/
def defaultModeRow (now : Int) (m : AICollaborationMode) : ModeRow :=
  { mode := m
    isActive := m = AICollaborationMode.inspired
    lastActivatedAt := if m = AICollaborationMode.inspired then some now else none
    configuration := none }

/-- Whether a row for mode `m` exists (the emptiness check in
`ensureModesExist` and the null check of `getModeWithCapabilities`). -/
def hasMode (rows : List ModeRow) (m : AICollaborationMode) : Bool :=
  rows.any (fun r => r.mode = m)

/-- Embedding of `ensureModesExist`: for each of the three modes, insert a
default row when none exists. -/
def ensureModesExist (now : Int) (db : ModeDb) : ModeDb :=
  [AICollaborationMode.inspired, AICollaborationMode.didactic,
    AICollaborationMode.parallel].foldl
    (fun d m =>
      if hasMode d.modes m then d
      else { d with modes := d.modes ++ [defaultModeRow now m] })
    db

/-- The `currentModes[0].mode` read: first row of the active filter. -/
def currentModeOf (db : ModeDb) : Option AICollaborationMode :=
  ((db.modes.filter (fun r => r.isActive)).head?).map (fun r => r.mode)

/-- The deactivation update: set `isActive := false` on rows of mode `m`. -/
def deactivateMode (rows : List ModeRow) (m : AICollaborationMode) : List ModeRow :=
  rows.map (fun r => if r.mode = m then { r with isActive := false } else r)

/-- The activation update: set `isActive := true` and `lastActivatedAt`
on rows of mode `m`. -/
def activateMode (rows : List ModeRow) (m : AICollaborationMode) (now : Int) :
    List ModeRow :=
  rows.map (fun r =>
    if r.mode = m then { r with isActive := true, lastActivatedAt := some now }
    else r)

/-- The message thrown when the target mode is already active. -/
def alreadyActiveMsg (m : AICollaborationMode) : String :=
  "Already in " ++ modeName m ++ " mode. No switch needed."

/-- The failure record written by the catch branch of the switch handler:
`fromMode` is hard-coded to null there. -/
def failRecord (target : AICollaborationMode) (dur : Int) (msg : String) :
    HistoryRow :=
  { fromMode := none
    toMode := target
    contextSnapshot := none
    transitionDuration := dur
    success := false
    errorMessage := some msg }

/-- Result of a switch attempt: the success value or the re-thrown error
message. -/
inductive SwitchOutcome
  | ok (transition : HistoryRow)
  | err (msg : String)
deriving DecidableEq

/-- Embedding of the try/catch body of the `mode:switch-mode` handler
(after `ensureModesExist`).  `tStart` is the `Date.now()` read at entry
and `tEnd` the read used for the transition duration and activation
timestamp; the handler returns the mutated database plus the outcome. -/
def switchModeCore (db : ModeDb) (target : AICollaborationMode)
    (ctx : Option String) (tStart tEnd : Int) : ModeDb × SwitchOutcome :=
  let current := currentModeOf db
  if current = some target then
    let msg := alreadyActiveMsg target
    ({ db with history := db.history ++ [failRecord target (tEnd - tStart) msg] },
      .err ("Mode switch failed: " ++ msg))
  else
    let modes1 :=
      match current with
      | some c => deactivateMode db.modes c
      | none => db.modes
    let modes2 := activateMode modes1 target tEnd
    let dur := tEnd - tStart
    let rec1 : HistoryRow :=
      { fromMode := current
        toMode := target
        contextSnapshot := ctx
        transitionDuration := dur
        success := true
        errorMessage := none }
    let db1 : ModeDb := { modes := modes2, history := db.history ++ [rec1] }
    if hasMode db1.modes target then (db1, .ok rec1)
    else
      let msg := "Failed to retrieve status for mode " ++ modeName target
      ({ db1 with history := db1.history ++ [failRecord target dur msg] },
        .err ("Mode switch failed: " ++ msg))

/-- Embedding of the whole `mode:switch-mode` handler: `ensureModesExist`
followed by the switch body. -/
def switchModeHandler (db : ModeDb) (target : AICollaborationMode)
    (ctx : Option String) (tStart tEnd : Int) : ModeDb × SwitchOutcome :=
  switchModeCore (ensureModesExist tStart db) target ctx tStart tEnd

/-! ## Redis event bus (src/distributed/redis_event_bus.ts) -/

/-- Event types of the distributed system, from `DistributedEventType`. -/
inductive DistributedEventType
  | modeChanged
  | modeConfigUpdated
  | contextCreated
  | contextUpdated
  | contextDeleted
  | responseGenerated
  | mcpToolExecuted
  | mcpServerAdded
  | mcpServerRemoved
  | syncRequest
  | syncHeartbeat
deriving DecidableEq

/-- A distributed event envelope, from the `DistributedEvent` interface.
The payload is kept opaque. -/
structure DistributedEvent where
  eventId : String
  eventType : DistributedEventType
  userId : String
  instanceId : String
  timestamp : Int
  payload : String
deriving DecidableEq

/-- Embedding of `RedisEventBus.handleRedisMessage`.  The JSON parse of
the wire message is represented by its result (`none` when parsing threw,
in which case the catch block swallows the error and nothing runs).  The
handler registry is a function from event type to the identifiers of the
registered handlers, and the returned list is the sequence of handler
invocations performed on this event — each invocation is isolated in its
own try/catch in the source, which does not alter which handlers run. -/
def handleRedisMessage (selfInstanceId : String)
    (handlers : DistributedEventType → List Nat)
    (parsed : Option DistributedEvent) : List Nat :=
  match parsed with
  | none => []
  | some event =>
    if event.instanceId = selfInstanceId then []
    else handlers event.eventType

/-- Embedding of the envelope construction in `RedisEventBus.publish`:
the published event always carries the instance id of the publishing bus. -/
def publishEvent (selfInstanceId : String) (eventId : String)
    (eventType : DistributedEventType) (userId : String) (timestamp : Int)
    (payload : String) : DistributedEvent :=
  { eventId := eventId
    eventType := eventType
    userId := userId
    instanceId := selfInstanceId
    timestamp := timestamp
    payload := payload }

/-! ## WebSocket sync server (src/unnamed/part_003, WebSocketSyncServer) -/

/-- Message types of the live transport, from `WSMessageType`. -/
inductive WSMessageType
  | connect
  | disconnect
  | ping
  | pong
  | modeUpdate
  | contextSync
  | stateRequest
  | stateResponse
  | heartbeat
  | error
deriving DecidableEq

/-- A transport message envelope, from the `WSMessage` interface. -/
structure WSMessage where
  id : String
  type : WSMessageType
  userId : String
  instanceId : String
  timestamp : Int
  payload : String
deriving DecidableEq

/-- Per-client bookkeeping of the server, from `WSClientInfo` (without
the raw socket handle). -/
structure WSClientInfo where
  userId : String
  instanceId : String
  connectedAt : Int
  lastPing : Int
deriving DecidableEq

/-- A raw socket as tracked in `wss.clients`.  The registration branch of
`handleMessage` reads an ad-hoc `clientId` property from the socket
object; no code in the repository ever assigns that property, so it is
modelled as an optional field that connections leave unset. -/
structure RawWs where
  clientIdProp : Option String
deriving DecidableEq

/-- State of the sync server: the socket set owned by the ws library and
the `clients` registry map (as an association list). -/
structure ServerState where
  wssClients : List RawWs
  clients : List (String × WSClientInfo)
deriving DecidableEq

/-- Initial server state after `start`: no sockets, empty registry. -/
def serverInit : ServerState := { wssClients := [], clients := [] }

/-- Embedding of the ping refresh in `handleMessage`: when a `ping`
arrives from a registered client, its `lastPing` is set to now.
Unregistered senders are ignored because `clients.get` misses. -/
def refreshPing (cid : String) (now : Int)
    (clients : List (String × WSClientInfo)) : List (String × WSClientInfo) :=
  clients.map (fun kv => if kv.1 = cid then (kv.1, { kv.2 with lastPing := now }) else kv)

/-- Embedding of the registration branch of `WebSocketSyncServer.handleMessage`:
when the sender is not yet registered and the message carries a userId,
the code first re-reads `clients.get(clientId)` (necessarily a miss) and
then searches `wss.clients` for a socket whose `clientId` property equals
the connection id; only on a hit does it insert a registry entry. -/
def registerClient (st : ServerState) (cid : String) (msg : WSMessage)
    (now : Int) : ServerState :=
  if ¬ (st.clients.any (fun kv => kv.1 = cid)) ∧ msg.userId ≠ "" then
    match st.clients.find? (fun kv => kv.1 = cid) with
    | some _ =>
      { st with clients :=
          st.clients.map (fun e =>
            if e.1 = cid then
              (e.1, { e.2 with userId := msg.userId, instanceId := msg.instanceId })
            else e) }
    | none =>
      match st.wssClients.find? (fun ws => ws.clientIdProp = some cid) with
      | some _ =>
        { st with clients :=
            st.clients ++ [(cid,
              { userId := msg.userId
                instanceId := msg.instanceId
                connectedAt := now
                lastPing := now })] }
      | none => st
  else st

/-- Embedding of `WebSocketSyncServer.handleMessage` restricted to its
effect on the server state: the registration branch, then the ping
branch.  Handler dispatch for other message types does not touch the
registry.  A message whose JSON parse failed (`none`) is swallowed. -/
def serverHandleMessage (st : ServerState) (cid : String)
    (parsed : Option WSMessage) (now : Int) : ServerState :=
  match parsed with
  | none => st
  | some msg =>
    let st1 := registerClient st cid msg now
    if msg.type = WSMessageType.ping then
      { st1 with clients := refreshPing cid now st1.clients }
    else st1

/-- Embedding of `WebSocketSyncServer.pingClients`: every tracked client
whose `lastPing` is more than 90000 ms old is closed and deleted from the
registry; survivors are sent a ping (which does not change the registry). -/
def pingClients (now : Int) (clients : List (String × WSClientInfo)) :
    List (String × WSClientInfo) :=
  clients.filter (fun kv => ¬ (now - kv.2.lastPing > 90000))

/-- Events driving the server state: a new connection (`handleConnection`
adds the socket to `wss.clients` and registers listeners; it never adds a
registry entry), an inbound message, a socket close, and the 30-second
heartbeat tick. -/
inductive ServerEvent
  | connection
  | message (cid : String) (parsed : Option WSMessage) (now : Int)
  | disconnect (cid : String)
  | heartbeatTick (now : Int)

/-- One step of the server state machine. -/
def serverStep (st : ServerState) : ServerEvent → ServerState
  | .connection => { st with wssClients := st.wssClients ++ [{ clientIdProp := none }] }
  | .message cid parsed now => serverHandleMessage st cid parsed now
  | .disconnect cid =>
    { st with clients := st.clients.filter (fun kv => kv.1 ≠ cid) }
  | .heartbeatTick now => { st with clients := pingClients now st.clients }

/-- The server state reached after a trace of events from startup. -/
def runServer (trace : List ServerEvent) : ServerState :=
  trace.foldl serverStep serverInit

/-- Embedding of `getClientCount`. -/
def getClientCount (st : ServerState) : Nat := st.clients.length

/-- The connection ids `broadcast` sends to (all registry entries except
an optional excluded one). -/
def broadcastTargets (st : ServerState) (excludeClientId : Option String) :
    List String :=
  (st.clients.filter (fun kv => some kv.1 ≠ excludeClientId)).map (fun kv => kv.1)

/-- The connection ids `broadcastToUser` sends to. -/
def broadcastToUserTargets (st : ServerState) (userId : String) : List String :=
  (st.clients.filter (fun kv => kv.2.userId = userId)).map (fun kv => kv.1)

/-- The two operations that touch an entry of the client registry: the
30-second heartbeat pass, and the `lastPing` refresh performed by the
ping branch of `handleMessage` for a registered client. -/
inductive RegistryEvent
  | tick (now : Int)
  | refresh (cid : String) (now : Int)

/-- Effect of one registry event on the client registry. -/
def registryStep (clients : List (String × WSClientInfo)) :
    RegistryEvent → List (String × WSClientInfo)
  | .tick now => pingClients now clients
  | .refresh cid now => refreshPing cid now clients

/-- Most recent refresh time of a client over a processed event list,
starting from its initial `lastPing`. -/
def lastRefreshAfter (cid : String) (t0 : Int) : List RegistryEvent → Int
  | [] => t0
  | .tick _ :: rest => lastRefreshAfter cid t0 rest
  | .refresh c t :: rest => lastRefreshAfter cid (if c = cid then t else t0) rest

/-! ## WebSocket sync client (src/unnamed/part_003, WebSocketSyncClient) -/

/-- Reconnect bookkeeping of `WebSocketSyncClient`: the last connect URL,
the attempt counter, and the cap (the constructor sets the cap to 10). -/
structure WSClientState where
  url : Option String
  reconnectAttempts : Nat
  maxReconnectAttempts : Nat
deriving DecidableEq

/-- Client state as built by the constructor. -/
def wsClientInit : WSClientState :=
  { url := none, reconnectAttempts := 0, maxReconnectAttempts := 10 }

/-- Embedding of `WebSocketSyncClient.handleDisconnect`: when a URL is
known and the attempt counter is below the cap, increment the counter and
schedule a reconnect after `min(1000 * 2 ^ attempt, 30000)` ms; otherwise
give up silently.  The second component is the scheduled delay. -/
def handleDisconnect (st : WSClientState) : WSClientState × Option Nat :=
  if st.url.isSome ∧ st.reconnectAttempts < st.maxReconnectAttempts then
    let a := st.reconnectAttempts + 1
    ({ st with reconnectAttempts := a }, some (min (1000 * 2 ^ a) 30000))
  else (st, none)

/-! ## Distributed memory manager (src/distributed/distributed_memory_manager.ts) -/

/-- The three enable flags of `DistributedMemoryConfig` (absent flags
behave as false through the `?? false` reads). -/
structure DistributedMemoryConfigFlags where
  enableMongoDB : Bool
  enableRedis : Bool
  enableWebSocket : Bool
deriving DecidableEq

/-- Status of one store or bus subsystem as reported by `getStatus`. -/
structure SubsystemStatus where
  enabled : Bool
  connected : Bool
  healthy : Bool
deriving DecidableEq

/-- Status of the websocket subsystem as reported by `getStatus`. -/
structure WebsocketStatus where
  enabled : Bool
  running : Bool
  clientCount : Nat
deriving DecidableEq

/-- The full status object of `DistributedMemoryManager.getStatus`. -/
structure DistributedMemoryStatus where
  mongodb : SubsystemStatus
  redis : SubsystemStatus
  websocket : WebsocketStatus
  isFullyOperational : Bool
deriving DecidableEq

/-- Embedding of `DistributedMemoryManager.getStatus`.  The external
connection predicates and health-check round-trips are inputs; the source
computes `mongoHealth` as `isConnected() ? await healthCheck() : false`
and likewise for Redis, and the operational flag as the conjunction shown
at the end of the method. -/
def getStatus (config : Option DistributedMemoryConfigFlags)
    (mongoConnected mongoPingOk redisConnected redisPingOk : Bool)
    (wsRunning : Bool) (wsClientCount : Nat) : DistributedMemoryStatus :=
  let mongoHealth := if mongoConnected then mongoPingOk else false
  let redisHealth := if redisConnected then redisPingOk else false
  let eMongo := match config with | some f => f.enableMongoDB | none => false
  let eRedis := match config with | some f => f.enableRedis | none => false
  let eWs := match config with | some f => f.enableWebSocket | none => false
  { mongodb := { enabled := eMongo, connected := mongoConnected, healthy := mongoHealth }
    redis := { enabled := eRedis, connected := redisConnected, healthy := redisHealth }
    websocket := { enabled := eWs, running := wsRunning, clientCount := wsClientCount }
    isFullyOperational :=
      (!eMongo || (mongoConnected && mongoHealth)) &&
      (!eRedis || (redisConnected && redisHealth)) &&
      (!eWs || wsRunning) }

/-! ## MongoDB update semantics and syncModeStateToMongoDB -/

/-- A fragment of BSON values sufficient for the mode-state document. -/
inductive BsonValue
  | int (n : Int)
  | str (s : String)
  | nullV
  | doc (fields : List (String × BsonValue))

/-- Setting one field of a document to a literal value (the behaviour of
a `$set` entry). -/
def setField (d : List (String × BsonValue)) (k : String) (v : BsonValue) :
    List (String × BsonValue) :=
  if d.any (fun kv => kv.1 = k) then
    d.map (fun kv => if kv.1 = k then (k, v) else kv)
  else d ++ [(k, v)]

/-- Applying a `$set` document: each listed field is set to its literal
value.  Operator names nested inside the values are not interpreted —
MongoDB update operators are only recognised at the top level of the
update document, so a value such as `\x7b $inc: 1 \x7d` is stored
verbatim as an embedded document. -/
def applySet (d : List (String × BsonValue))
    (sets : List (String × BsonValue)) : List (String × BsonValue) :=
  sets.foldl (fun acc kv => setField acc kv.1 kv.2) d

/-- Reading a field of a document. -/
def getField (d : List (String × BsonValue)) (k : String) : Option BsonValue :=
  (d.find? (fun kv => kv.1 = k)).map (fun kv => kv.2)

/-- The `$set` document built by
`DistributedMemoryManager.syncModeStateToMongoDB` for an inbound
`mode:changed` event: note that the source nests `$inc` inside `$set`, so
the `syncVersion` entry is the literal embedded document
`\x7b "$inc": 1 \x7d`, not an increment. -/
def syncModeStateSetFields (toMode : AICollaborationMode)
    (fromMode : Option AICollaborationMode) (now : Int) :
    List (String × BsonValue) :=
  [("currentMode", BsonValue.str (modeName toMode)),
   ("previousMode",
     match fromMode with
     | some m => BsonValue.str (modeName m)
     | none => BsonValue.nullV),
   ("updatedAt", BsonValue.int now),
   ("syncVersion", BsonValue.doc [("$inc", BsonValue.int 1)])]

/-- Effect of `syncModeStateToMongoDB` on the matched (or upserted)
mode-state document. -/
def syncModeStateToMongoDB (docFields : List (String × BsonValue))
    (toMode : AICollaborationMode) (fromMode : Option AICollaborationMode)
    (now : Int) : List (String × BsonValue) :=
  applySet docFields (syncModeStateSetFields toMode fromMode now)

/-! ## Multi-MCP coordinator execution log (src/ipc/utils/multi_mcp_coordinator.ts) -/

/-- One execution-log entry, from `McpToolExecution` (payloads opaque). -/
structure McpToolExecution where
  serverId : Int
  serverName : String
  toolName : String
  input : String
  output : String
  success : Bool
  duration : Int
  timestamp : Int
deriving DecidableEq

/-- The `maxHistorySize` field of the coordinator. -/
def maxHistorySize : Nat := 100

/-- Embedding of `MultiMcpCoordinator.addToHistory`: push the entry, then
shift off the oldest entry when the length exceeds the cap. -/
def addToHistory (history : List McpToolExecution) (e : McpToolExecution) :
    List McpToolExecution :=
  let h := history ++ [e]
  if h.length > maxHistorySize then h.drop 1 else h

/-- The log contents after a sequence of `executeTool` calls starting
from the empty log (each call appends exactly one entry via
`addToHistory`). -/
def runHistory (es : List McpToolExecution) : List McpToolExecution :=
  es.foldl addToHistory []

/-! ## Response source annotation (src/unnamed/part_001)

The annotate/extract pair works on JavaScript strings, modelled here as
`List Char`.  The regular expression
`<!--SOURCE:(.+?)-->` is embedded as an explicit leftmost, shortest-group
matcher, where `.` is any character except the four ECMAScript line
terminators. -/

/-- Whether a character is matched by the regex metacharacter `.`
(everything except a line terminator). -/
def isDot (c : Char) : Bool :=
  ¬ (c = '\n' ∨ c = '\r' ∨ c.toNat = 0x2028 ∨ c.toNat = 0x2029)

/-- Whether a character is trimmed by `String.prototype.trim`. -/
def isJsSpace (c : Char) : Bool :=
  c = ' ' ∨ c = '\t' ∨ c = '\n' ∨ c = '\r' ∨ c = '\x0b' ∨ c = '\x0c' ∨
  c.toNat = 0xa0 ∨ c.toNat = 0x2028 ∨ c.toNat = 0x2029 ∨ c.toNat = 0xfeff

/-- Embedding of `trim()`: drop whitespace from both ends. -/
def jsTrim (s : List Char) : List Char :=
  ((s.dropWhile isJsSpace).reverse.dropWhile isJsSpace).reverse

/-- Strips an expected prefix, returning the remainder on success. -/
def stripPrefixChars : List Char → List Char → Option (List Char)
  | [], s => some s
  | _ :: _, [] => none
  | p :: ps, c :: cs => if c = p then stripPrefixChars ps cs else none

/-- Whether `p` is a prefix of `s`. -/
def listStartsWith (p s : List Char) : Bool :=
  (stripPrefixChars p s).isSome

/-- Whether `p` occurs as a contiguous substring of `s`. -/
def hasSub (s p : List Char) : Bool :=
  match s with
  | [] => listStartsWith p []
  | _ :: cs => listStartsWith p s || hasSub cs p

/-- Lowercase hexadecimal digit for a value below 16, as produced by the
`\u00XX` escapes of `JSON.stringify`. -/
def hexDigitChar (n : Nat) : Char :=
  if n < 10 then Char.ofNat (48 + n) else Char.ofNat (87 + n)

/-- Value of a hexadecimal digit accepted by a JSON `\u` escape. -/
def hexVal (c : Char) : Option Nat :=
  if 48 ≤ c.toNat ∧ c.toNat ≤ 57 then some (c.toNat - 48)
  else if 97 ≤ c.toNat ∧ c.toNat ≤ 102 then some (c.toNat - 87)
  else if 65 ≤ c.toNat ∧ c.toNat ≤ 70 then some (c.toNat - 55)
  else none

/-- The escape sequence `JSON.stringify` emits for one character of a
string value: quote and backslash are escaped, the five named control
escapes are used where available, remaining control characters become
`\u00XX` with lowercase hex, and every other character is emitted as is. -/
def jsonEscapeChar (c : Char) : List Char :=
  if c = '"' then ['\\', '"']
  else if c = '\\' then ['\\', '\\']
  else if c = '\x08' then ['\\', 'b']
  else if c = '\t' then ['\\', 't']
  else if c = '\n' then ['\\', 'n']
  else if c = '\x0c' then ['\\', 'f']
  else if c = '\r' then ['\\', 'r']
  else if c.toNat < 32 then
    ['\\', 'u', '0', '0', hexDigitChar (c.toNat / 16), hexDigitChar (c.toNat % 16)]
  else [c]

/-- Serialisation of a string body by `JSON.stringify`. -/
def jsonEscape (s : List Char) : List Char :=
  s.foldr (fun c acc => jsonEscapeChar c ++ acc) []

/-- A JSON string literal: quoted escaped body. -/
def jsonQuote (s : List Char) : List Char :=
  '"' :: (jsonEscape s ++ ['"'])

/-- Decimal digit character. -/
def digitChar (d : Nat) : Char := Char.ofNat (48 + d)

/-- Digits of a positive number, most significant first; the fuel
argument only bounds the recursion depth. -/
def natToCharsAux : Nat → Nat → List Char
  | 0, _ => []
  | fuel + 1, n =>
    if n = 0 then [] else natToCharsAux fuel (n / 10) ++ [digitChar (n % 10)]

/-- Decimal representation of a natural number, as `JSON.stringify`
prints an integer-valued number. -/
def natToChars (n : Nat) : List Char :=
  if n = 0 then ['0'] else natToCharsAux n n

/-- Whether a character is a decimal digit. -/
def isDigitChar (c : Char) : Bool :=
  48 ≤ c.toNat ∧ c.toNat ≤ 57

/-- Greedy scan of decimal digits, accumulating their value. -/
def parseDigitsAcc (acc : Nat) : List Char → Nat × List Char
  | [] => (acc, [])
  | c :: cs =>
    if isDigitChar c then parseDigitsAcc (10 * acc + (c.toNat - 48)) cs
    else (acc, c :: cs)

/-- Parse a nonempty run of decimal digits. -/
def parseNatChars : List Char → Option (Nat × List Char)
  | [] => none
  | c :: cs =>
    if isDigitChar c then some (parseDigitsAcc (c.toNat - 48) cs) else none

/-- Parse the body of a JSON string after the opening quote, undoing the
escapes of `jsonEscapeChar`, up to and including the closing quote.
Returns the decoded body and the remaining input. -/
def parseJsonStringBody : List Char → Option (List Char × List Char)
  | [] => none
  | c :: cs =>
    if c = '"' then some ([], cs)
    else if c = '\\' then
      match cs with
      | [] => none
      | e :: cs2 =>
        if e = '"' then (parseJsonStringBody cs2).map (fun p => ('"' :: p.1, p.2))
        else if e = '\\' then (parseJsonStringBody cs2).map (fun p => ('\\' :: p.1, p.2))
        else if e = '/' then (parseJsonStringBody cs2).map (fun p => ('/' :: p.1, p.2))
        else if e = 'b' then (parseJsonStringBody cs2).map (fun p => ('\x08' :: p.1, p.2))
        else if e = 't' then (parseJsonStringBody cs2).map (fun p => ('\t' :: p.1, p.2))
        else if e = 'n' then (parseJsonStringBody cs2).map (fun p => ('\n' :: p.1, p.2))
        else if e = 'f' then (parseJsonStringBody cs2).map (fun p => ('\x0c' :: p.1, p.2))
        else if e = 'r' then (parseJsonStringBody cs2).map (fun p => ('\r' :: p.1, p.2))
        else if e = 'u' then
          match cs2 with
          | h1 :: h2 :: h3 :: h4 :: cs3 =>
            match hexVal h1, hexVal h2, hexVal h3, hexVal h4 with
            | some v1, some v2, some v3, some v4 =>
              (parseJsonStringBody cs3).map
                (fun p => (Char.ofNat (((v1 * 16 + v2) * 16 + v3) * 16 + v4) :: p.1, p.2))
            | _, _, _, _ => none
          | _ => none
        else none
    else (parseJsonStringBody cs).map (fun p => (c :: p.1, p.2))

/-- Parse a JSON string literal including its opening quote. -/
def parseQuoted (s : List Char) : Option (List Char × List Char) :=
  match s with
  | c :: cs => if c = '"' then parseJsonStringBody cs else none
  | [] => none

/-- The metadata object built by `annotateResponseSource` from a
`ResponseSource`.  The numeric fields are modelled as natural numbers
(the source serialises them with `JSON.stringify`, which prints
integer-valued numbers in plain decimal); a missing `confidence` is
omitted from the serialised object exactly as `JSON.stringify` omits an
`undefined` property. -/
structure SourceMeta where
  sourceType : String
  provider : String
  model : String
  confidence : Option Nat
  timestamp : Nat
deriving DecidableEq

/-- Serialisation of the metadata object, with the property order of the
object literal in `annotateResponseSource`. -/
def encodeMetaChars (m : SourceMeta) : List Char :=
  ("\x7b\"sourceType\":").toList ++ jsonQuote m.sourceType.toList
    ++ (",\"provider\":").toList ++ jsonQuote m.provider.toList
    ++ (",\"model\":").toList ++ jsonQuote m.model.toList
    ++ (match m.confidence with
        | some cVal => (",\"confidence\":").toList ++ natToChars cVal
        | none => [])
    ++ (",\"timestamp\":").toList ++ natToChars m.timestamp ++ ['\x7d']

/-- Embedding of `JSON.parse` restricted to the grammar that
`encodeMetaChars` emits (the only strings the extract path feeds it in
the round-trip under study).  It accepts exactly the serialised form of a
metadata object, consumed to the end of the input. -/
def parseMeta (s : List Char) : Option SourceMeta := do
  let s1 ← stripPrefixChars ("\x7b\"sourceType\":").toList s
  let (st, s2) ← parseQuoted s1
  let s3 ← stripPrefixChars (",\"provider\":").toList s2
  let (pv, s4) ← parseQuoted s3
  let s5 ← stripPrefixChars (",\"model\":").toList s4
  let (md, s6) ← parseQuoted s5
  match stripPrefixChars (",\"confidence\":").toList s6 with
  | some s7 => do
    let (cVal, s8) ← parseNatChars s7
    let s9 ← stripPrefixChars (",\"timestamp\":").toList s8
    let (ts, s10) ← parseNatChars s9
    let s11 ← stripPrefixChars ("\x7d").toList s10
    if s11 = [] then
      some { sourceType := String.mk st, provider := String.mk pv,
             model := String.mk md, confidence := some cVal, timestamp := ts }
    else none
  | none => do
    let s7 ← stripPrefixChars (",\"timestamp\":").toList s6
    let (ts, s8) ← parseNatChars s7
    let s9 ← stripPrefixChars ("\x7d").toList s8
    if s9 = [] then
      some { sourceType := String.mk st, provider := String.mk pv,
             model := String.mk md, confidence := none, timestamp := ts }
    else none

/-- The literal prefix of the annotation marker. -/
def markerChars : List Char :=
  ['<', '!', '-', '-', 'S', 'O', 'U', 'R', 'C', 'E', ':']

/-- The closing delimiter of the annotation marker. -/
def arrowChars : List Char := ['-', '-', '>']

/-- Embedding of `annotateResponseSource`: prepend the serialised
metadata between the marker and the closing delimiter. -/
def annotateResponseSource (content : List Char) (source : SourceMeta) :
    List Char :=
  markerChars ++ encodeMetaChars source ++ arrowChars ++ content

/-- The lazy group scan of `(.+?)-->`: having already captured the
reversed characters in `acc`, stop at the first position where `-->`
follows, otherwise consume one more `.`-matching character. -/
def grabGo (acc : List Char) : List Char → Option (List Char × List Char)
  | [] => none
  | c :: cs =>
    if listStartsWith arrowChars (c :: cs) then some (acc.reverse, (c :: cs).drop 3)
    else if isDot c then grabGo (c :: acc) cs
    else none

/-- Attempt to match `<!--SOURCE:(.+?)-->` at the start of `s`, returning
the captured group and the remainder after the match. -/
def tryMatchAt (s : List Char) : Option (List Char × List Char) :=
  match stripPrefixChars markerChars s with
  | some rest =>
    match rest with
    | [] => none
    | c :: cs => if isDot c then grabGo [c] cs else none
  | none => none

/-- Leftmost match of `<!--SOURCE:(.+?)-->` in `s`: the text before the
match, the captured group, and the text after the match. -/
def firstSourceMatch : List Char → Option (List Char × List Char × List Char)
  | [] => none
  | c :: cs =>
    match tryMatchAt (c :: cs) with
    | some (g, rest) => some ([], g, rest)
    | none =>
      match firstSourceMatch cs with
      | some (pre, g, rest) => some (c :: pre, g, rest)
      | none => none

/-- Result record of `extractResponseSource`. -/
structure ExtractResult where
  source : Option SourceMeta
  cleanContent : List Char
deriving DecidableEq

/-- Embedding of `extractResponseSource`: find the first marker match,
parse its captured group as JSON (a parse failure is caught and falls
through to the no-source return), and on success strip the first match
from the content and trim the remainder. -/
def extractResponseSource (content : List Char) : ExtractResult :=
  match firstSourceMatch content with
  | some (pre, g, post) =>
    match parseMeta g with
    | some m => { source := some m, cleanContent := jsTrim (pre ++ post) }
    | none => { source := none, cleanContent := content }
  | none => { source := none, cleanContent := content }

/-! ## Concrete example values used by witnesses -/

/-- A concrete mode-state document holding an integer `syncVersion`, as
the schema declares it. -/
def modeStateDocExample : List (String × BsonValue) :=
  [("userId", BsonValue.str "u1"), ("instanceId", BsonValue.str "i1"),
   ("currentMode", BsonValue.str "inspired"),
   ("previousMode", BsonValue.nullV),
   ("updatedAt", BsonValue.int 0),
   ("syncVersion", BsonValue.int 5)]

/-- A concrete tracked transport client. -/
def wsInfoExample : WSClientInfo :=
  { userId := "u1", instanceId := "i1", connectedAt := 0, lastPing := 0 }

/-- A concrete response source used in the round-trip claims. -/
def sourceMetaExample : SourceMeta :=
  { sourceType := "external", provider := "p", model := "m",
    confidence := none, timestamp := 5 }

/-- A concrete mode database as first created by `ensureModesExist`:
all three rows present, `inspired` active. -/
def modeDbExample : ModeDb :=
  { modes := [defaultModeRow 0 AICollaborationMode.inspired,
      defaultModeRow 0 AICollaborationMode.didactic,
      defaultModeRow 0 AICollaborationMode.parallel]
    history := [] }

/-! ## General helper lemmas -/

/-- Head of a list through a function, when every element maps to the
same value. -/
lemma head?_map_of_forall {α β : Type} (xs : List α) (f : α → β) (v : β)
    (hne : xs ≠ []) (hall : ∀ x ∈ xs, f x = v) : xs.head?.map f = some v := by
  cases xs with
  | nil => exact absurd rfl hne
  | cons a t => simpa using hall a (by simp)

/-! ## Claim theorems -/

/-- C3: an inbound bus message whose embedded instance id equals the
receiving event bus instance id is discarded before dispatch, so no
registered handler runs on it; handlers only run on events from other
instances; and an event built by `publish` on the same bus (which stamps
the bus own instance id) is never dispatched locally. -/
theorem redis_self_origin_filtering :
    ∀ (selfId : String) (handlers : DistributedEventType → List Nat)
      (event : DistributedEvent),
      (event.instanceId = selfId →
        handleRedisMessage selfId handlers (some event) = []) ∧
      (handleRedisMessage selfId handlers (some event) ≠ [] →
        event.instanceId ≠ selfId) ∧
      (∀ (eid uid payload : String) (ts : Int) (et : DistributedEventType),
        handleRedisMessage selfId handlers
          (some (publishEvent selfId eid et uid ts payload)) = []) := by
  intro selfId handlers event
  refine ⟨fun h => ?_, fun h => ?_, fun eid uid payload ts et => ?_⟩
  · simp [handleRedisMessage, h]
  · intro heq
    exact h (by simp [handleRedisMessage, heq])
  · simp [handleRedisMessage, publishEvent]

/-- Witness for C3 at a concrete self-published event. -/
theorem redis_self_origin_filtering_witness :
    handleRedisMessage "inst-1" (fun _ => [0])
      (some { eventId := "e1", eventType := DistributedEventType.modeChanged,
              userId := "u1", instanceId := "inst-1", timestamp := 0,
              payload := "" }) = [] :=
  (redis_self_origin_filtering "inst-1" (fun _ => [0]) _).1 rfl

/-- C6: the reconnect delay scheduled on the nth consecutive disconnect
is `min(1000 * 2 ^ n, 30000)` ms for attempts 1 through 10 (in
particular 2000, 4000, 8000, 16000 and 30000 ms for the first five), and
once the attempt counter has reached the cap of 10 no reconnect is
scheduled any more. -/
theorem reconnect_backoff_schedule :
    ∀ st : WSClientState, st.maxReconnectAttempts = 10 → st.url.isSome = true →
      (∀ n : Nat, 1 ≤ n → n ≤ 10 → st.reconnectAttempts = n - 1 →
        (handleDisconnect st).2 = some (min (1000 * 2 ^ n) 30000) ∧
        (handleDisconnect st).1.reconnectAttempts = n) ∧
      (st.reconnectAttempts = 0 → (handleDisconnect st).2 = some 2000) ∧
      (st.reconnectAttempts = 1 → (handleDisconnect st).2 = some 4000) ∧
      (st.reconnectAttempts = 2 → (handleDisconnect st).2 = some 8000) ∧
      (st.reconnectAttempts = 3 → (handleDisconnect st).2 = some 16000) ∧
      (st.reconnectAttempts = 4 → (handleDisconnect st).2 = some 30000) ∧
      (10 ≤ st.reconnectAttempts → (handleDisconnect st).2 = none) := by
  intro st hmax hurl
  have hgen : ∀ n : Nat, 1 ≤ n → n ≤ 10 → st.reconnectAttempts = n - 1 →
      (handleDisconnect st).2 = some (min (1000 * 2 ^ n) 30000) ∧
      (handleDisconnect st).1.reconnectAttempts = n := by
    intro n h1 h10 hn
    have hlt : st.reconnectAttempts < st.maxReconnectAttempts := by
      rw [hmax, hn]; omega
    have hsucc : st.reconnectAttempts + 1 = n := by omega
    simp [handleDisconnect, hurl, hlt, hsucc]
  refine ⟨hgen, ?_, ?_, ?_, ?_, ?_, ?_⟩
  · intro h0
    have := (hgen 1 (by omega) (by omega) (by omega)).1
    simpa using this
  · intro h0
    have := (hgen 2 (by omega) (by omega) (by omega)).1
    simpa using this
  · intro h0
    have := (hgen 3 (by omega) (by omega) (by omega)).1
    simpa using this
  · intro h0
    have := (hgen 4 (by omega) (by omega) (by omega)).1
    simpa using this
  · intro h0
    have := (hgen 5 (by omega) (by omega) (by omega)).1
    simpa using this
  · intro hge
    have hnlt : ¬ st.reconnectAttempts < st.maxReconnectAttempts := by
      rw [hmax]; omega
    simp [handleDisconnect, hnlt]

/-- Witness for C6: first disconnect from a fresh connected client
schedules a 2000 ms reconnect. -/
theorem reconnect_backoff_schedule_witness :
    (handleDisconnect
      { url := some "ws://h"
        reconnectAttempts := 0
        maxReconnectAttempts := 10 }).2 = some 2000 :=
  ((reconnect_backoff_schedule
    { url := some "ws://h"
      reconnectAttempts := 0
      maxReconnectAttempts := 10 } rfl (by decide)).2).1 rfl

/-- C8 (bug evaluation): syncing one inbound `mode:changed` event over a
document whose `syncVersion` is the integer 5 leaves `syncVersion` equal
to the literal embedded document `\x7b "$inc": 1 \x7d` — not an integer at
all, and in particular not an increment — because the source nests the
`$inc` operator inside `$set`. -/
theorem sync_version_clobbered_by_nested_inc :
    getField (syncModeStateToMongoDB modeStateDocExample
        AICollaborationMode.didactic (some AICollaborationMode.inspired) 1000)
      "syncVersion" = some (BsonValue.doc [("$inc", BsonValue.int 1)]) ∧
    ∀ n : Int,
      getField (syncModeStateToMongoDB modeStateDocExample
          AICollaborationMode.didactic (some AICollaborationMode.inspired) 1000)
        "syncVersion" ≠ some (BsonValue.int n) := by
  constructor
  · rfl
  · intro n h
    rw [show getField (syncModeStateToMongoDB modeStateDocExample
        AICollaborationMode.didactic (some AICollaborationMode.inspired) 1000)
        "syncVersion" = some (BsonValue.doc [("$inc", BsonValue.int 1)]) from rfl] at h
    simp at h

/-- C10: after any sequence of `executeTool` calls the execution log has
at most 100 entries; the log is exactly the suffix of the most recent
(at most 100) executions; and each call appends its entry as the newest
log element. -/
theorem execution_log_bounded :
    ∀ es : List McpToolExecution,
      (runHistory es).length ≤ 100 ∧
      runHistory es = es.drop (es.length - 100) ∧
      ∀ e : McpToolExecution, (runHistory (es ++ [e])).getLast? = some e := by
  have key : ∀ es : List McpToolExecution,
      runHistory es = es.drop (es.length - 100) := by
    intro es
    induction es using List.reverseRecOn with
    | nil => rfl
    | append_singleton es e ih =>
      have step : runHistory (es ++ [e]) = addToHistory (runHistory es) e := by
        simp [runHistory, List.foldl_append]
      rw [step, ih]
      by_cases hlen : es.length ≤ 99
      · have h0 : es.length - 100 = 0 := by omega
        have h1 : es.length + 1 - 100 = 0 := by omega
        have hle : ¬ (es ++ [e]).length > maxHistorySize := by
          simp only [List.length_append, List.length_singleton, maxHistorySize]
          omega
        rw [List.length_append, List.length_singleton, h0, h1]
        simp only [List.drop_zero, addToHistory]
        rw [if_neg hle]
      · have hlendrop : (es.drop (es.length - 100)).length = 100 := by
          rw [List.length_drop]; omega
        have hgt : (es.drop (es.length - 100) ++ [e]).length > maxHistorySize := by
          rw [List.length_append, hlendrop, List.length_singleton]
          simp [maxHistorySize]
        calc addToHistory (es.drop (es.length - 100)) e
            = (es.drop (es.length - 100) ++ [e]).drop 1 := by
              simp only [addToHistory]
              rw [if_pos hgt]
          _ = (es.drop (es.length - 100)).drop 1 ++ [e] := by
              rw [List.drop_append_eq_append_drop, hlendrop]
              simp
          _ = es.drop (es.length + 1 - 100) ++ [e] := by
              rw [List.drop_drop]
              congr 2
              omega
          _ = (es ++ [e]).drop ((es ++ [e]).length - 100) := by
              rw [List.length_append, List.length_singleton,
                List.drop_append_eq_append_drop]
              have h0 : es.length + 1 - 100 - es.length = 0 := by omega
              rw [h0]
              simp
  intro es
  refine ⟨?_, key es, ?_⟩
  · rw [key es, List.length_drop]
    omega
  · intro e
    rw [key (es ++ [e]), List.drop_append_eq_append_drop]
    have h0 : (es ++ [e]).length - 100 - es.length = 0 := by
      rw [List.length_append, List.length_singleton]; omega
    rw [h0, List.drop_zero, List.getLast?_append]
    rfl

/-- A registered client whose freshness condition holds at every
heartbeat tick of a trace survives the whole trace, with its `lastPing`
tracking its most recent refresh. -/
lemma fresh_client_survives :
    ∀ (trace : List RegistryEvent) (clients : List (String × WSClientInfo))
      (cid : String) (info : WSClientInfo),
      (cid, info) ∈ clients →
      (∀ (pre post : List RegistryEvent) (now : Int),
        trace = pre ++ RegistryEvent.tick now :: post →
        now - lastRefreshAfter cid info.lastPing pre ≤ 90000) →
      (cid, { info with lastPing := lastRefreshAfter cid info.lastPing trace }) ∈
        trace.foldl registryStep clients := by
  intro trace
  induction trace with
  | nil =>
    intro clients cid info hmem _
    simpa [lastRefreshAfter] using hmem
  | cons ev rest ih =>
    intro clients cid info hmem hfresh
    cases ev with
    | tick now =>
      have h0 : now - info.lastPing ≤ 90000 := by
        have := hfresh [] rest now rfl
        simpa [lastRefreshAfter] using this
      have hmem2 : (cid, info) ∈ pingClients now clients := by
        refine List.mem_filter.mpr ⟨hmem, ?_⟩
        simp only [decide_eq_true_eq]
        omega
      have hfresh2 : ∀ (pre post : List RegistryEvent) (now2 : Int),
          rest = pre ++ RegistryEvent.tick now2 :: post →
          now2 - lastRefreshAfter cid info.lastPing pre ≤ 90000 := by
        intro pre post now2 hsplit
        have := hfresh (RegistryEvent.tick now :: pre) post now2
          (by rw [hsplit]; rfl)
        simpa [lastRefreshAfter] using this
      have := ih (pingClients now clients) cid info hmem2 hfresh2
      simpa [List.foldl_cons, registryStep, lastRefreshAfter] using this
    | refresh c t =>
      by_cases hc : c = cid
      · have hmem2 : (cid, { info with lastPing := t }) ∈
            refreshPing c t clients := by
          have := List.mem_map_of_mem
            (fun kv : String × WSClientInfo =>
              if kv.1 = c then (kv.1, { kv.2 with lastPing := t }) else kv) hmem
          simpa [refreshPing, hc] using this
        have hfresh2 : ∀ (pre post : List RegistryEvent) (now2 : Int),
            rest = pre ++ RegistryEvent.tick now2 :: post →
            now2 - lastRefreshAfter cid
              ({ info with lastPing := t } : WSClientInfo).lastPing pre ≤ 90000 := by
          intro pre post now2 hsplit
          have := hfresh (RegistryEvent.refresh c t :: pre) post now2
            (by rw [hsplit]; rfl)
          simpa [lastRefreshAfter, hc] using this
        have := ih (refreshPing c t clients) cid { info with lastPing := t }
          hmem2 hfresh2
        simpa [List.foldl_cons, registryStep, lastRefreshAfter, hc] using this
      · have hmem2 : (cid, info) ∈ refreshPing c t clients := by
          have := List.mem_map_of_mem
            (fun kv : String × WSClientInfo =>
              if kv.1 = c then (kv.1, { kv.2 with lastPing := t }) else kv) hmem
          have hne : cid ≠ c := fun h => hc h.symm
          simpa [refreshPing, hne] using this
        have hfresh2 : ∀ (pre post : List RegistryEvent) (now2 : Int),
            rest = pre ++ RegistryEvent.tick now2 :: post →
            now2 - lastRefreshAfter cid info.lastPing pre ≤ 90000 := by
          intro pre post now2 hsplit
          have := hfresh (RegistryEvent.refresh c t :: pre) post now2
            (by rw [hsplit]; rfl)
          simpa [lastRefreshAfter, hc] using this
        have := ih (refreshPing c t clients) cid info hmem2 hfresh2
        simpa [List.foldl_cons, registryStep, lastRefreshAfter, hc] using this

/-- C4: at a heartbeat tick every tracked client whose `lastPing` is more
than 90 seconds old is evicted from the registry; a client within the 90
second window survives the tick untouched; and over any event trace a
client that is refreshed so that no tick ever sees it more than 90
seconds stale is never evicted. -/
theorem transport_staleness_eviction :
    (∀ (now : Int) (clients : List (String × WSClientInfo)) (cid : String)
        (info : WSClientInfo),
        (cid, info) ∈ clients → now - info.lastPing > 90000 →
        (cid, info) ∉ pingClients now clients) ∧
    (∀ (now : Int) (clients : List (String × WSClientInfo)) (cid : String)
        (info : WSClientInfo),
        (cid, info) ∈ clients → now - info.lastPing ≤ 90000 →
        (cid, info) ∈ pingClients now clients) ∧
    (∀ (trace : List RegistryEvent) (clients : List (String × WSClientInfo))
        (cid : String) (info : WSClientInfo),
        (cid, info) ∈ clients →
        (∀ (pre post : List RegistryEvent) (now : Int),
          trace = pre ++ RegistryEvent.tick now :: post →
          now - lastRefreshAfter cid info.lastPing pre ≤ 90000) →
        (cid, { info with lastPing := lastRefreshAfter cid info.lastPing trace }) ∈
          trace.foldl registryStep clients) := by
  refine ⟨?_, ?_, fresh_client_survives⟩
  · intro now clients cid info _ hstale hcontra
    have := (List.mem_filter.mp hcontra).2
    simp only [decide_eq_true_eq] at this
    omega
  · intro now clients cid info hmem hok
    refine List.mem_filter.mpr ⟨hmem, ?_⟩
    simp only [decide_eq_true_eq]
    omega

/-- Witness for C4: a client last pinged at time 0 is evicted by a tick
at 100000 ms and survives a tick at 50000 ms. -/
theorem transport_staleness_eviction_witness :
    ("a", wsInfoExample) ∉ pingClients 100000 [("a", wsInfoExample)] ∧
    ("a", wsInfoExample) ∈ pingClients 50000 [("a", wsInfoExample)] :=
  ⟨transport_staleness_eviction.1 100000 [("a", wsInfoExample)] "a"
      wsInfoExample (by simp) (by decide),
    transport_staleness_eviction.2.1 50000 [("a", wsInfoExample)] "a"
      wsInfoExample (by simp) (by decide)⟩

/-- One server event preserves the empty registry and the absence of the
ad-hoc `clientId` property on every raw socket. -/
lemma serverStep_preserves_empty :
    ∀ (st : ServerState) (ev : ServerEvent),
      st.clients = [] → (∀ ws ∈ st.wssClients, ws.clientIdProp = none) →
      (serverStep st ev).clients = [] ∧
        ∀ ws ∈ (serverStep st ev).wssClients, ws.clientIdProp = none := by
  intro st ev hc hw
  cases ev with
  | connection =>
    refine ⟨hc, ?_⟩
    intro ws hws
    rcases List.mem_append.mp hws with h | h
    · exact hw ws h
    · rw [List.mem_singleton.mp h]
  | message cid parsed now =>
    cases parsed with
    | none => exact ⟨hc, hw⟩
    | some msg =>
      have hfind : st.wssClients.find?
          (fun ws => ws.clientIdProp = some cid) = none := by
        apply List.find?_eq_none.mpr
        intro ws hws
        simp [hw ws hws]
      have hreg : registerClient st cid msg now = st := by
        unfold registerClient
        rw [hc]
        simp [hfind]
      have hstep : serverStep st (ServerEvent.message cid (some msg) now) =
          if msg.type = WSMessageType.ping then
            { st with clients := refreshPing cid now st.clients }
          else st := by
        show serverHandleMessage st cid (some msg) now = _
        simp only [serverHandleMessage, hreg]
      rw [hstep]
      split
      · exact ⟨by simp [refreshPing, hc], hw⟩
      · exact ⟨hc, hw⟩
  | disconnect cid =>
    exact ⟨by simp [serverStep, hc], hw⟩
  | heartbeatTick now =>
    exact ⟨by simp [serverStep, pingClients, hc], hw⟩

/-- Every reachable server state has an empty registry and only raw
sockets without the `clientId` property. -/
lemma runServer_empty :
    ∀ trace : List ServerEvent,
      (runServer trace).clients = [] ∧
        ∀ ws ∈ (runServer trace).wssClients, ws.clientIdProp = none := by
  intro trace
  suffices h : ∀ st : ServerState, st.clients = [] →
      (∀ ws ∈ st.wssClients, ws.clientIdProp = none) →
      (trace.foldl serverStep st).clients = [] ∧
        ∀ ws ∈ (trace.foldl serverStep st).wssClients, ws.clientIdProp = none by
    exact h serverInit rfl (by intro ws hws; simp [serverInit] at hws)
  induction trace with
  | nil => intro st h1 h2; exact ⟨h1, h2⟩
  | cons ev rest ih =>
    intro st h1 h2
    have hstep := serverStep_preserves_empty st ev h1 h2
    exact ih (serverStep st ev) hstep.1 hstep.2

/-- C5: in every reachable state of the sync server the client registry
is empty — connections and messages never add an entry because the
registration lookup searches for a socket property that is never
assigned — so the client count is always zero and neither broadcast
primitive sends to any tracked client. -/
theorem ws_client_registry_never_populated :
    ∀ trace : List ServerEvent,
      (runServer trace).clients = [] ∧
      getClientCount (runServer trace) = 0 ∧
      (∀ excludeId : Option String,
        broadcastTargets (runServer trace) excludeId = []) ∧
      (∀ userId : String,
        broadcastToUserTargets (runServer trace) userId = []) := by
  intro trace
  have h := (runServer_empty trace).1
  refine ⟨h, ?_, ?_, ?_⟩
  · simp [getClientCount, h]
  · intro excludeId
    simp [broadcastTargets, h]
  · intro userId
    simp [broadcastToUserTargets, h]

/-- C7: the `isFullyOperational` flag of `getStatus` is true when no
subsystem is enabled; it is false whenever an enabled MongoDB or Redis
subsystem is not both connected and healthy, or an enabled websocket
subsystem is not running; and the inputs of a subsystem that is not
enabled never change the flag. -/
theorem fully_operational_flag :
    ∀ (config : Option DistributedMemoryConfigFlags)
      (mc mp rc rp ws : Bool) (n : Nat),
      (((getStatus config mc mp rc rp ws n).mongodb.enabled = false ∧
        (getStatus config mc mp rc rp ws n).redis.enabled = false ∧
        (getStatus config mc mp rc rp ws n).websocket.enabled = false) →
        (getStatus config mc mp rc rp ws n).isFullyOperational = true) ∧
      ((getStatus config mc mp rc rp ws n).mongodb.enabled = true →
        ((getStatus config mc mp rc rp ws n).mongodb.connected &&
          (getStatus config mc mp rc rp ws n).mongodb.healthy) = false →
        (getStatus config mc mp rc rp ws n).isFullyOperational = false) ∧
      ((getStatus config mc mp rc rp ws n).redis.enabled = true →
        ((getStatus config mc mp rc rp ws n).redis.connected &&
          (getStatus config mc mp rc rp ws n).redis.healthy) = false →
        (getStatus config mc mp rc rp ws n).isFullyOperational = false) ∧
      ((getStatus config mc mp rc rp ws n).websocket.enabled = true →
        (getStatus config mc mp rc rp ws n).websocket.running = false →
        (getStatus config mc mp rc rp ws n).isFullyOperational = false) ∧
      ((getStatus config mc mp rc rp ws n).mongodb.enabled = false →
        ∀ mc2 mp2 : Bool,
          (getStatus config mc2 mp2 rc rp ws n).isFullyOperational =
            (getStatus config mc mp rc rp ws n).isFullyOperational) ∧
      ((getStatus config mc mp rc rp ws n).redis.enabled = false →
        ∀ rc2 rp2 : Bool,
          (getStatus config mc mp rc2 rp2 ws n).isFullyOperational =
            (getStatus config mc mp rc rp ws n).isFullyOperational) ∧
      ((getStatus config mc mp rc rp ws n).websocket.enabled = false →
        ∀ ws2 : Bool,
          (getStatus config mc mp rc rp ws2 n).isFullyOperational =
            (getStatus config mc mp rc rp ws n).isFullyOperational) := by
  intro config mc mp rc rp ws n
  cases config with
  | none =>
    simp [getStatus]
  | some f =>
    obtain ⟨f1, f2, f3⟩ := f
    simp only [getStatus]
    revert f1 f2 f3 mc mp rc rp ws
    decide

/-- Witness for C7: with nothing enabled the flag is vacuously true. -/
theorem fully_operational_flag_witness :
    (getStatus
      (some
        { enableMongoDB := false
          enableRedis := false
          enableWebSocket := false })
      false false false false false 0).isFullyOperational = true :=
  (fully_operational_flag
    (some
      { enableMongoDB := false
        enableRedis := false
        enableWebSocket := false })
    false false false false false 0).1 ⟨rfl, rfl, rfl⟩

/-- When every mode row already exists, `ensureModesExist` changes
nothing. -/
lemma ensureModesExist_of_hasMode (db : ModeDb) (now : Int)
    (h : ∀ m, hasMode db.modes m = true) :
    ensureModesExist now db = db := by
  simp [ensureModesExist, h]

/-- Deactivation does not change which modes have a row. -/
lemma hasMode_deactivate (rows : List ModeRow) (m t : AICollaborationMode) :
    hasMode (deactivateMode rows m) t = hasMode rows t := by
  simp only [hasMode, deactivateMode, List.any_map]
  congr 1
  funext r
  simp only [Function.comp]
  split <;> rfl

/-- Activation does not change which modes have a row. -/
lemma hasMode_activate (rows : List ModeRow) (m t : AICollaborationMode)
    (now : Int) :
    hasMode (activateMode rows m now) t = hasMode rows t := by
  simp only [hasMode, activateMode, List.any_map]
  congr 1
  funext r
  simp only [Function.comp]
  split <;> rfl

/-- After deactivating the single active mode and activating the target,
the active rows are exactly the target rows: nonempty, and all of mode
`target`. -/
lemma active_rows_after_switch (db : ModeDb) (c target : AICollaborationMode)
    (tEnd : Int)
    (honly : ∀ r ∈ db.modes, r.isActive = true → r.mode = c)
    (hhas : hasMode db.modes target = true) :
    (activateMode (deactivateMode db.modes c) target tEnd).filter
        (fun r => r.isActive) ≠ [] ∧
      ∀ r ∈ (activateMode (deactivateMode db.modes c) target tEnd).filter
        (fun r => r.isActive), r.mode = target := by
  constructor
  · obtain ⟨r0, hr0mem, hr0t⟩ : ∃ r0 ∈ db.modes, r0.mode = target := by
      simpa [hasMode] using hhas
    have hd : ((if r0.mode = c then { r0 with isActive := false } else r0) :
        ModeRow).mode = target := by
      split <;> simpa using hr0t
    have hmem2 : ((if r0.mode = c then { r0 with isActive := false } else r0) :
        ModeRow) ∈ deactivateMode db.modes c :=
      List.mem_map_of_mem _ hr0mem
    have hmem3 := List.mem_map_of_mem
      (fun r : ModeRow =>
        if r.mode = target then
          { r with isActive := true, lastActivatedAt := some tEnd }
        else r) hmem2
    apply List.ne_nil_of_mem (List.mem_filter.mpr ⟨hmem3, ?_⟩)
    show ((if ((if r0.mode = c then { r0 with isActive := false } else r0) :
        ModeRow).mode = target then
        { (if r0.mode = c then { r0 with isActive := false } else r0) with
          isActive := true, lastActivatedAt := some tEnd }
      else (if r0.mode = c then { r0 with isActive := false } else r0)) :
        ModeRow).isActive = true
    rw [if_pos hd]
  · intro r hr
    obtain ⟨hrmem, hract⟩ := List.mem_filter.mp hr
    obtain ⟨r1, hr1mem, hr1eq⟩ := List.mem_map.mp hrmem
    obtain ⟨r0, hr0mem, hr0eq⟩ := List.mem_map.mp hr1mem
    by_cases ht : r1.mode = target
    · rw [← hr1eq]
      simp only [if_pos ht]
      exact ht
    · exfalso
      rw [← hr1eq] at hract
      simp only [if_neg ht] at hract
      by_cases hc0 : r0.mode = c
      · rw [← hr0eq] at hract
        simp only [if_pos hc0] at hract
        exact absurd hract (by simp)
      · rw [← hr0eq] at hract ht
        simp only [if_neg hc0] at hract ht
        exact hc0 (honly r0 hr0mem hract)

/-- C1: with all mode rows present and a single active mode `c` distinct
from the target, a switch succeeds: the new state has the target as its
current mode, exactly one new history record is appended with
`fromMode = c`, `toMode = target`, `success = true`, and the transition
duration is nonnegative. -/
theorem switch_mode_success :
    ∀ (db : ModeDb) (target c : AICollaborationMode) (ctx : Option String)
      (tStart tEnd : Int),
      (∀ m, hasMode db.modes m = true) →
      (db.modes.filter (fun r => r.isActive)).map (fun r => r.mode) = [c] →
      c ≠ target →
      tStart ≤ tEnd →
      (switchModeHandler db target ctx tStart tEnd).2 =
        SwitchOutcome.ok
          { fromMode := some c
            toMode := target
            contextSnapshot := ctx
            transitionDuration := tEnd - tStart
            success := true
            errorMessage := none } ∧
      (switchModeHandler db target ctx tStart tEnd).1.history =
        db.history ++
          [{ fromMode := some c
             toMode := target
             contextSnapshot := ctx
             transitionDuration := tEnd - tStart
             success := true
             errorMessage := none }] ∧
      currentModeOf (switchModeHandler db target ctx tStart tEnd).1 =
        some target ∧
      0 ≤ tEnd - tStart := by
  intro db target c ctx tStart tEnd hAll hAct hNe hT
  have honly : ∀ r ∈ db.modes, r.isActive = true → r.mode = c := by
    intro r hrmem hract
    have hrf : r ∈ db.modes.filter (fun r => r.isActive) :=
      List.mem_filter.mpr ⟨hrmem, hract⟩
    have := List.mem_map_of_mem (fun r : ModeRow => r.mode) hrf
    rw [hAct] at this
    simpa using this
  have hcur : currentModeOf db = some c := by
    rw [currentModeOf]
    apply head?_map_of_forall
    · intro hnil
      rw [hnil] at hAct
      simp at hAct
    · intro r hr
      exact honly r (List.mem_filter.mp hr).1 (List.mem_filter.mp hr).2
  have hens : ensureModesExist tStart db = db :=
    ensureModesExist_of_hasMode db tStart hAll
  have hcond : ¬ (some c = some target) := by
    intro h
    exact hNe (Option.some_injective _ h)
  have htrue : hasMode (activateMode (deactivateMode db.modes c) target tEnd)
      target = true := by
    rw [hasMode_activate, hasMode_deactivate]
    exact hAll target
  have hstep : switchModeHandler db target ctx tStart tEnd =
      ({ modes := activateMode (deactivateMode db.modes c) target tEnd
         history := db.history ++
           [{ fromMode := some c
              toMode := target
              contextSnapshot := ctx
              transitionDuration := tEnd - tStart
              success := true
              errorMessage := none }] },
        SwitchOutcome.ok
          { fromMode := some c
            toMode := target
            contextSnapshot := ctx
            transitionDuration := tEnd - tStart
            success := true
            errorMessage := none }) := by
    show switchModeCore (ensureModesExist tStart db) target ctx tStart tEnd = _
    rw [hens]
    simp only [switchModeCore, hcur]
    rw [if_neg hcond]
    simp only [htrue, if_true]
  refine ⟨?_, ?_, ?_, by omega⟩
  · rw [hstep]
  · rw [hstep]
  · rw [hstep]
    have hchar := active_rows_after_switch db c target tEnd honly (hAll target)
    exact head?_map_of_forall _ _ _ hchar.1 hchar.2

/-- Witness for C1: switching the freshly initialised database from
`inspired` to `didactic` succeeds with the expected transition record. -/
theorem switch_mode_success_witness :
    (switchModeHandler modeDbExample AICollaborationMode.didactic none 0 5).2 =
      SwitchOutcome.ok
        { fromMode := some AICollaborationMode.inspired
          toMode := AICollaborationMode.didactic
          contextSnapshot := none
          transitionDuration := 5
          success := true
          errorMessage := none } :=
  (switch_mode_success modeDbExample AICollaborationMode.didactic
    AICollaborationMode.inspired none 0 5 (fun m => by cases m <;> decide)
    (by decide) (by decide) (by decide)).1

/-- C2: with all mode rows present and the target mode already active,
a switch fails with the already-active error, and a failure record is
still appended whose `toMode` is the target, whose `success` is false,
and whose `fromMode` is null rather than the actual current mode. -/
theorem switch_mode_already_active :
    ∀ (db : ModeDb) (target : AICollaborationMode) (ctx : Option String)
      (tStart tEnd : Int),
      (∀ m, hasMode db.modes m = true) →
      (db.modes.filter (fun r => r.isActive)).map (fun r => r.mode) =
        [target] →
      (switchModeHandler db target ctx tStart tEnd).2 =
        SwitchOutcome.err ("Mode switch failed: " ++ alreadyActiveMsg target) ∧
      (switchModeHandler db target ctx tStart tEnd).1.history =
        db.history ++
          [failRecord target (tEnd - tStart) (alreadyActiveMsg target)] ∧
      (failRecord target (tEnd - tStart) (alreadyActiveMsg target)).fromMode =
        none ∧
      (failRecord target (tEnd - tStart) (alreadyActiveMsg target)).toMode =
        target ∧
      (failRecord target (tEnd - tStart) (alreadyActiveMsg target)).success =
        false := by
  intro db target ctx tStart tEnd hAll hAct
  have hcur : currentModeOf db = some target := by
    rw [currentModeOf]
    apply head?_map_of_forall
    · intro hnil
      rw [hnil] at hAct
      simp at hAct
    · intro r hr
      have hrf := List.mem_map_of_mem (fun r : ModeRow => r.mode) hr
      rw [hAct] at hrf
      simpa using hrf
  have hens : ensureModesExist tStart db = db :=
    ensureModesExist_of_hasMode db tStart hAll
  have hstep : switchModeHandler db target ctx tStart tEnd =
      ({ db with history := db.history ++
          [failRecord target (tEnd - tStart) (alreadyActiveMsg target)] },
        SwitchOutcome.err ("Mode switch failed: " ++ alreadyActiveMsg target)) := by
    show switchModeCore (ensureModesExist tStart db) target ctx tStart tEnd = _
    rw [hens]
    simp only [switchModeCore, hcur]
    simp
  exact ⟨by rw [hstep], by rw [hstep], rfl, rfl, rfl⟩

/-- Witness for C2: asking the freshly initialised database to switch to
the already-active `inspired` mode fails and still appends a failure
record with a null `fromMode`. -/
theorem switch_mode_already_active_witness :
    (switchModeHandler modeDbExample AICollaborationMode.inspired none 0 5).2 =
      SwitchOutcome.err
        ("Mode switch failed: " ++ alreadyActiveMsg AICollaborationMode.inspired) :=
  (switch_mode_already_active modeDbExample AICollaborationMode.inspired
    none 0 5 (fun m => by cases m <;> decide) (by decide)).1

/-- Stripping a prefix from a list that starts with that prefix leaves
the remainder. -/
lemma stripPrefixChars_append : ∀ (p s : List Char),
    stripPrefixChars p (p ++ s) = some s := by
  intro p
  induction p with
  | nil => intro s; rfl
  | cons c cs ih => intro s; simp [stripPrefixChars, ih]

/-- A prefix test does not look past the first `p.length` characters. -/
lemma startsWith_append_ge : ∀ (p s t : List Char), p.length ≤ s.length →
    listStartsWith p (s ++ t) = listStartsWith p s := by
  intro p
  induction p with
  | nil => intro s t _; rfl
  | cons c ps ih =>
    intro s t h
    cases s with
    | nil => simp at h
    | cons a ss =>
      simp only [List.cons_append, listStartsWith, stripPrefixChars]
      by_cases hac : a = c
      · simp only [if_pos hac]
        exact ih ss t (by simpa using h)
      · simp [hac]

/-- A string that starts with `p` contains `p`. -/
lemma hasSub_of_startsWith (s p : List Char)
    (h : listStartsWith p s = true) : hasSub s p = true := by
  cases s with
  | nil => simpa [hasSub] using h
  | cons c cs => simp [hasSub, h]

/-- Substring containment is preserved by extending on the left. -/
lemma hasSub_cons (c : Char) (cs p : List Char)
    (h : hasSub cs p = true) : hasSub (c :: cs) p = true := by
  simp [hasSub, h]

/-- A pattern that starts some suffix of `s` is a substring of `s`. -/
lemma hasSub_of_suffix (s2 s p : List Char) (hsuf : s2 <:+ s)
    (h : listStartsWith p s2 = true) : hasSub s p = true := by
  obtain ⟨t, ht⟩ := hsuf
  subst ht
  induction t with
  | nil => exact hasSub_of_startsWith s2 p h
  | cons a tt ih => exact hasSub_cons a _ p ih

/-- When the captured segment contains no `-->`, no nonempty suffix of
it (followed by the real closing delimiter) can start with `-->`. -/
lemma no_arrow_start (enc content : List Char)
    (h : hasSub enc arrowChars = false) :
    ∀ s2, s2 ≠ [] → s2 <:+ enc →
      listStartsWith arrowChars (s2 ++ (arrowChars ++ content)) = false := by
  intro s2 hne hsuf
  by_contra hcontra
  rw [Bool.not_eq_false] at hcontra
  rcases s2 with _ | ⟨a, _ | ⟨b, _ | ⟨c, s2'⟩⟩⟩
  · exact hne rfl
  · simp [listStartsWith, stripPrefixChars, arrowChars] at hcontra
  · simp [listStartsWith, stripPrefixChars, arrowChars] at hcontra
  · rw [startsWith_append_ge arrowChars (a :: b :: c :: s2')
      (arrowChars ++ content) (by simp [arrowChars])] at hcontra
    have hsub := hasSub_of_suffix _ _ _ hsuf hcontra
    rw [h] at hsub
    simp at hsub

/-- The lazy group scan consumes exactly a segment free of `-->` and
line terminators, stopping at the closing delimiter. -/
lemma grabGo_through : ∀ (rest acc content : List Char),
    (∀ s2, s2 ≠ [] → s2 <:+ rest →
      listStartsWith arrowChars (s2 ++ (arrowChars ++ content)) = false) →
    (∀ ch ∈ rest, isDot ch = true) →
    grabGo acc (rest ++ (arrowChars ++ content)) =
      some (acc.reverse ++ rest, content) := by
  intro rest
  induction rest with
  | nil =>
    intro acc content _ _
    simp [arrowChars, grabGo, listStartsWith, stripPrefixChars]
  | cons r rs ih =>
    intro acc content hsafe hdot
    have hfalse : listStartsWith arrowChars
        (r :: (rs ++ (arrowChars ++ content))) = false := by
      have := hsafe (r :: rs) (by simp) (List.suffix_refl _)
      simpa using this
    have hdotr : isDot r = true := hdot r (by simp)
    have hsafe2 : ∀ s2, s2 ≠ [] → s2 <:+ rs →
        listStartsWith arrowChars (s2 ++ (arrowChars ++ content)) = false := by
      intro s2 h1 h2
      exact hsafe s2 h1 (h2.trans (List.suffix_cons r rs))
    have hdot2 : ∀ ch ∈ rs, isDot ch = true := by
      intro ch hch
      exact hdot ch (by simp [hch])
    simp [List.cons_append, grabGo, hfalse, hdotr,
      ih (r :: acc) content hsafe2 hdot2, List.reverse_cons,
      List.append_assoc]

/-- Matching the marker regex at the start of a marker-led string
captures exactly the safe segment before the closing delimiter. -/
lemma tryMatchAt_seg (seg content : List Char) (hne : seg ≠ [])
    (hdot : ∀ ch ∈ seg, isDot ch = true)
    (hsafe : ∀ s2, s2 ≠ [] → s2 <:+ seg →
      listStartsWith arrowChars (s2 ++ (arrowChars ++ content)) = false) :
    tryMatchAt (markerChars ++ (seg ++ (arrowChars ++ content))) =
      some (seg, content) := by
  cases seg with
  | nil => exact absurd rfl hne
  | cons e0 seg' =>
    have hdot0 : isDot e0 = true := hdot e0 (by simp)
    have hsafe2 : ∀ s2, s2 ≠ [] → s2 <:+ seg' →
        listStartsWith arrowChars (s2 ++ (arrowChars ++ content)) = false := by
      intro s2 h1 h2
      exact hsafe s2 h1 (h2.trans (List.suffix_cons e0 seg'))
    have hdot2 : ∀ ch ∈ seg', isDot ch = true := by
      intro ch hch
      exact hdot ch (by simp [hch])
    simp only [tryMatchAt, stripPrefixChars_append, List.cons_append]
    rw [hdot0]
    simp only [if_true]
    rw [grabGo_through seg' [e0] content hsafe2 hdot2]
    simp

/-- A string whose head position already matches yields the leftmost
match with an empty preamble. -/
lemma firstSourceMatch_of_head (s g rest : List Char)
    (hne : s ≠ []) (h : tryMatchAt s = some (g, rest)) :
    firstSourceMatch s = some ([], g, rest) := by
  cases s with
  | nil => exact absurd rfl hne
  | cons c cs => simp [firstSourceMatch, h]

/-- The first marker match in an annotated string is the annotation
itself, capturing the serialised metadata. -/
lemma firstSourceMatch_annotate (content : List Char) (m : SourceMeta)
    (hdot : ∀ ch ∈ encodeMetaChars m, isDot ch = true)
    (harrow : hasSub (encodeMetaChars m) arrowChars = false) :
    firstSourceMatch (annotateResponseSource content m) =
      some ([], encodeMetaChars m, content) := by
  have hne : encodeMetaChars m ≠ [] := by
    simp [encodeMetaChars]
  have hsafe := no_arrow_start (encodeMetaChars m) content harrow
  have hmatch := tryMatchAt_seg (encodeMetaChars m) content hne hdot hsafe
  apply firstSourceMatch_of_head
  · simp [annotateResponseSource, markerChars]
  · rw [annotateResponseSource, List.append_assoc, List.append_assoc]
    exact hmatch

/-- Hex digits produced by the encoder decode to their value. -/
lemma hexVal_hexDigitChar : ∀ n, n < 16 → hexVal (hexDigitChar n) = some n := by
  decide

/-- Decimal digit characters are recognised as digits. -/
lemma isDigitChar_digitChar : ∀ d, d < 10 → isDigitChar (digitChar d) = true := by
  decide

/-- Code of a decimal digit character. -/
lemma digitChar_toNat : ∀ d, d < 10 → (digitChar d).toNat = 48 + d := by
  decide

/-- Parsing one escaped character undoes its escape, for any
continuation of the input. -/
lemma parseBody_escapeChar (c : Char) (tail : List Char) :
    parseJsonStringBody (jsonEscapeChar c ++ tail) =
      (parseJsonStringBody tail).map (fun p => (c :: p.1, p.2)) := by
  by_cases h1 : c = '"'
  · subst h1
    show parseJsonStringBody ('\\' :: '"' :: tail) = _
    rw [parseJsonStringBody.eq_def]
    simp
  by_cases h2 : c = '\\'
  · subst h2
    show parseJsonStringBody ('\\' :: '\\' :: tail) = _
    rw [parseJsonStringBody.eq_def]
    simp
  by_cases h3 : c = '\x08'
  · subst h3
    show parseJsonStringBody ('\\' :: 'b' :: tail) = _
    rw [parseJsonStringBody.eq_def]
    simp
  by_cases h4 : c = '\t'
  · subst h4
    show parseJsonStringBody ('\\' :: 't' :: tail) = _
    rw [parseJsonStringBody.eq_def]
    simp
  by_cases h5 : c = '\n'
  · subst h5
    show parseJsonStringBody ('\\' :: 'n' :: tail) = _
    rw [parseJsonStringBody.eq_def]
    simp
  by_cases h6 : c = '\x0c'
  · subst h6
    show parseJsonStringBody ('\\' :: 'f' :: tail) = _
    rw [parseJsonStringBody.eq_def]
    simp
  by_cases h7 : c = '\r'
  · subst h7
    show parseJsonStringBody ('\\' :: 'r' :: tail) = _
    rw [parseJsonStringBody.eq_def]
    simp
  by_cases h8 : c.toNat < 32
  · have hesc : jsonEscapeChar c ++ tail =
        '\\' :: 'u' :: '0' :: '0' :: hexDigitChar (c.toNat / 16) ::
          hexDigitChar (c.toNat % 16) :: tail := by
      simp [jsonEscapeChar, h1, h2, h3, h4, h5, h6, h7, h8]
    have hdiv : c.toNat / 16 < 16 := by omega
    have hmod : c.toNat % 16 < 16 := by omega
    have hval : c.toNat / 16 * 16 + c.toNat % 16 = c.toNat := by omega
    rw [hesc, parseJsonStringBody.eq_def]
    simp [hexVal_hexDigitChar _ hdiv, hexVal_hexDigitChar _ hmod, hval,
      Char.ofNat_toNat, show hexVal '0' = some 0 from rfl]
  · have hesc : jsonEscapeChar c ++ tail = c :: tail := by
      simp [jsonEscapeChar, h1, h2, h3, h4, h5, h6, h7, h8]
    rw [hesc, parseJsonStringBody.eq_def]
    simp [h1, h2]

/-- Parsing an escaped string body up to the closing quote recovers the
original string and the remaining input. -/
lemma parseBody_escape : ∀ (s rest : List Char),
    parseJsonStringBody (jsonEscape s ++ ('"' :: rest)) = some (s, rest) := by
  intro s
  induction s with
  | nil =>
    intro rest
    show parseJsonStringBody ('"' :: rest) = some ([], rest)
    rw [parseJsonStringBody.eq_def]
    simp
  | cons c s2 ih =>
    intro rest
    have hstep : jsonEscape (c :: s2) = jsonEscapeChar c ++ jsonEscape s2 := rfl
    rw [hstep, List.append_assoc, parseBody_escapeChar, ih]
    rfl

/-- Parsing a serialised string literal recovers the original string. -/
lemma parseQuoted_jsonQuote (s rest : List Char) :
    parseQuoted (jsonQuote s ++ rest) = some (s, rest) := by
  show parseQuoted ('"' :: (jsonEscape s ++ ['"']) ++ rest) = _
  simp only [List.cons_append, parseQuoted, if_pos]
  rw [List.append_assoc]
  exact parseBody_escape s rest

/-- Greedy digit parsing stops at the first non-digit and accumulates
the decimal value. -/
lemma parseDigitsAcc_append : ∀ (ds : List Nat) (acc : Nat) (rest : List Char),
    (∀ d ∈ ds, d < 10) →
    (∀ r ∈ rest.head?, isDigitChar r = false) →
    parseDigitsAcc acc (ds.map digitChar ++ rest) =
      (ds.foldl (fun a d => 10 * a + d) acc, rest) := by
  intro ds
  induction ds with
  | nil =>
    intro acc rest _ hnd
    cases rest with
    | nil => rfl
    | cons r rs =>
      have hr : isDigitChar r = false := hnd r (by simp)
      show parseDigitsAcc acc (r :: rs) = (acc, r :: rs)
      rw [parseDigitsAcc.eq_def]
      simp [hr]
  | cons d ds2 ih =>
    intro acc rest hds hnd
    have hd10 : d < 10 := hds d (by simp)
    have hih := ih (10 * acc + d) rest (fun x hx => hds x (by simp [hx])) hnd
    simp only [List.map_cons, List.cons_append]
    rw [parseDigitsAcc.eq_def]
    simp only [isDigitChar_digitChar d hd10, if_true, digitChar_toNat d hd10]
    have h48 : 10 * acc + (48 + d - 48) = 10 * acc + d := by omega
    rw [h48, hih]
    simp

/-- The fueled digit printer agrees with the mathematical digits of the
number, most significant first. -/
lemma natToCharsAux_eq : ∀ (fuel n : Nat), n ≤ fuel →
    natToCharsAux fuel n = ((Nat.digits 10 n).reverse).map digitChar := by
  intro fuel
  induction fuel with
  | zero =>
    intro n hn
    have h0 : n = 0 := by omega
    subst h0
    simp [natToCharsAux]
  | succ fuel ih =>
    intro n hn
    by_cases h0 : n = 0
    · subst h0; simp [natToCharsAux]
    · have hpos : 0 < n := Nat.pos_of_ne_zero h0
      have hdiv : n / 10 ≤ fuel := by
        have := Nat.div_lt_self hpos (by norm_num : (1:ℕ) < 10)
        omega
      rw [natToCharsAux, if_neg h0, ih (n / 10) hdiv,
        Nat.digits_def' (by norm_num : (1:ℕ) < 10) hpos]
      simp

/-- Folding the decimal digits most significant first reconstructs the
number, shifted by the accumulator. -/
lemma foldl_base10 : ∀ (L : List Nat) (acc : Nat),
    (L.reverse).foldl (fun a d => 10 * a + d) acc =
      acc * 10 ^ L.length + Nat.ofDigits 10 L := by
  intro L
  induction L with
  | nil => intro acc; simp [Nat.ofDigits]
  | cons d L2 ih =>
    intro acc
    simp only [List.reverse_cons, List.foldl_append, List.foldl_cons,
      List.foldl_nil, ih, Nat.ofDigits_cons, List.length_cons]
    ring

/-- Parsing the decimal print of a number recovers the number, provided
the remaining input does not begin with a digit. -/
lemma parseNat_natToChars (n : Nat) (rest : List Char)
    (hnd : ∀ r ∈ rest.head?, isDigitChar r = false) :
    parseNatChars (natToChars n ++ rest) = some (n, rest) := by
  by_cases h0 : n = 0
  · subst h0
    show parseNatChars ('0' :: rest) = some (0, rest)
    have hd := parseDigitsAcc_append [] 0 rest (by simp) hnd
    simp only [List.map_nil, List.nil_append, List.foldl_nil] at hd
    rw [parseNatChars.eq_def]
    simp [show isDigitChar '0' = true from rfl,
      show '0'.toNat - 48 = 0 from rfl, hd]
  · have hpos : 0 < n := Nat.pos_of_ne_zero h0
    have hdig : Nat.digits 10 n ≠ [] := Nat.digits_ne_nil_iff_ne_zero.mpr h0
    rw [natToChars, if_neg h0, natToCharsAux_eq n n le_rfl]
    obtain ⟨d0, ds2, hrev⟩ : ∃ d0 ds2,
        (Nat.digits 10 n).reverse = d0 :: ds2 := by
      cases hrw : (Nat.digits 10 n).reverse with
      | nil =>
        exact absurd (by simpa using congrArg List.reverse hrw) hdig
      | cons a b => exact ⟨a, b, rfl⟩
    rw [hrev]
    have hall : ∀ d ∈ d0 :: ds2, d < 10 := by
      intro d hd
      have hmem : d ∈ (Nat.digits 10 n).reverse := by rw [hrev]; exact hd
      exact Nat.digits_lt_base (by norm_num) (List.mem_reverse.mp hmem)
    have hd0 : d0 < 10 := hall d0 (by simp)
    simp only [List.map_cons, List.cons_append]
    rw [parseNatChars.eq_def]
    simp only [isDigitChar_digitChar d0 hd0, if_true, digitChar_toNat d0 hd0]
    have h48 : 48 + d0 - 48 = d0 := by omega
    rw [h48, parseDigitsAcc_append ds2 d0 rest
      (fun x hx => hall x (by simp [hx])) hnd]
    have hfold := foldl_base10 (Nat.digits 10 n) 0
    rw [Nat.ofDigits_digits, hrev] at hfold
    simp only [List.foldl_cons] at hfold
    have hstep : 10 * 0 + d0 = d0 := by omega
    rw [hstep] at hfold
    rw [hfold]
    simp

/-- Parsing the serialised metadata object recovers the metadata. -/
lemma parseMeta_encode (m : SourceMeta) : parseMeta (encodeMetaChars m) = some m := by
  obtain ⟨st, pv, md, conf, ts⟩ := m
  have hnd1 : ∀ r ∈ ((",\"timestamp\":").toList ++
      (natToChars ts ++ ['\x7d'])).head?, isDigitChar r = false := by
    intro r hr
    have hh : ((",\"timestamp\":").toList ++
        (natToChars ts ++ ['\x7d'])).head? = some ',' := rfl
    rw [hh] at hr
    simp at hr
    subst hr
    decide
  have hnd2 : ∀ r ∈ (['\x7d'] : List Char).head?, isDigitChar r = false := by
    intro r hr
    simp at hr
    subst hr
    decide
  cases conf with
  | none =>
    simp only [parseMeta, encodeMetaChars, List.append_assoc, List.nil_append]
    rw [stripPrefixChars_append]
    simp only [Option.bind_eq_bind, Option.some_bind]
    rw [parseQuoted_jsonQuote]
    simp only [Option.some_bind]
    rw [stripPrefixChars_append]
    simp only [Option.some_bind]
    rw [parseQuoted_jsonQuote]
    simp only [Option.some_bind]
    rw [stripPrefixChars_append]
    simp only [Option.some_bind]
    rw [parseQuoted_jsonQuote]
    simp only [Option.some_bind]
    rw [show stripPrefixChars (",\"confidence\":").toList
        ((",\"timestamp\":").toList ++ (natToChars ts ++ ['\x7d'])) =
        none from rfl]
    rw [stripPrefixChars_append]
    simp only [Option.some_bind]
    rw [parseNat_natToChars ts _ hnd2]
    simp only [Option.some_bind]
    rw [show stripPrefixChars ("\x7d").toList (['\x7d'] : List Char) =
        some [] from rfl]
    simp only [Option.some_bind, if_pos]
    rfl
  | some cv =>
    have hndc : ∀ r ∈ ((",\"timestamp\":").toList ++
        (natToChars ts ++ ['\x7d'])).head?, isDigitChar r = false := hnd1
    simp only [parseMeta, encodeMetaChars, List.append_assoc, List.nil_append]
    rw [stripPrefixChars_append]
    simp only [Option.bind_eq_bind, Option.some_bind]
    rw [parseQuoted_jsonQuote]
    simp only [Option.some_bind]
    rw [stripPrefixChars_append]
    simp only [Option.some_bind]
    rw [parseQuoted_jsonQuote]
    simp only [Option.some_bind]
    rw [stripPrefixChars_append]
    simp only [Option.some_bind]
    rw [parseQuoted_jsonQuote]
    simp only [Option.some_bind]
    rw [stripPrefixChars_append]
    simp only [Option.some_bind]
    rw [parseNat_natToChars cv _ hndc]
    simp only [Option.some_bind]
    rw [stripPrefixChars_append]
    simp only [Option.some_bind]
    rw [parseNat_natToChars ts _ hnd2]
    simp only [Option.some_bind]
    rw [show stripPrefixChars ("\x7d").toList (['\x7d'] : List Char) =
        some [] from rfl]
    simp only [Option.some_bind, if_pos]
    rfl

/-- C9 (counterexample): annotating the marker-free content
`" Hello"` with the source `\x7b sourceType := "external", provider := "p",
model := "m" \x7d` and extracting returns `"Hello"` — the `trim()` in
`extractResponseSource` drops the leading space — so the extracted
`cleanContent` differs from the original content, contrary to the claim. -/
theorem annotate_extract_roundtrip_counterexample :
    hasSub (" Hello").toList markerChars = false ∧
    (extractResponseSource (annotateResponseSource (" Hello").toList
        sourceMetaExample)).source = some sourceMetaExample ∧
    (extractResponseSource (annotateResponseSource (" Hello").toList
        sourceMetaExample)).cleanContent = ("Hello").toList ∧
    (extractResponseSource (annotateResponseSource (" Hello").toList
        sourceMetaExample)).cleanContent ≠ (" Hello").toList := by
  refine ⟨by decide, by decide, by decide, by decide⟩

/-- C9 (amended): for content that carries no leading or trailing
whitespace and no pre-existing source marker, and a source whose
serialised metadata contains no `-->` and no line-terminator characters,
extracting an annotated response returns the original content and the
original source unchanged. -/
theorem annotate_extract_roundtrip :
    ∀ (content : List Char) (m : SourceMeta),
      jsTrim content = content →
      hasSub content markerChars = false →
      hasSub (encodeMetaChars m) arrowChars = false →
      (∀ ch ∈ encodeMetaChars m, isDot ch = true) →
      extractResponseSource (annotateResponseSource content m) =
        { source := some m, cleanContent := content } := by
  intro content m htrim hmarker harrow hdot
  have hmatch := firstSourceMatch_annotate content m hdot harrow
  simp [extractResponseSource, hmatch, parseMeta_encode, htrim]

/-- Witness for the amended C9 at content `"Hello"` and source
`external/p/m`, as named in the claim. -/
theorem annotate_extract_roundtrip_witness :
    extractResponseSource (annotateResponseSource ("Hello").toList
        sourceMetaExample) =
      { source := some sourceMetaExample
        cleanContent := ("Hello").toList } :=
  annotate_extract_roundtrip ("Hello").toList sourceMetaExample
    (by decide) (by decide) (by decide) (by decide)

end LuminaSage
